import Mathlib

/-!
Verification of the FRED search-result text parser
(`parse_search_result_file`, duplicated in `convert_search_results.py` and
`convert_search_results_markdown.py`).

The Python code is embedded shallowly: strings are Lean `String`s (lists of
characters), Python's `str.strip`, `str.split`, `str.replace`,
`str.startswith`, substring containment, and the two regular expressions
`\d+\. ([A-Z0-9]+) - (.+)` and `\d+\.` are modelled by executable character
level functions below.  The two `while` loops of the parser become the
recursive functions `lookahead` (the metadata lookahead, recursing on the
remaining lines, carrying the previous raw line and whether we are still at
position `i + 1`) and `scanRecords` (the outer scan).
-/

/-- Python's default whitespace test used by `str.strip`. -/
def wsChar (c : Char) : Bool := c.isWhitespace

/-- Left trim of a character list (Python `str.lstrip`). -/
def ltrimL (l : List Char) : List Char := l.dropWhile wsChar

/-- Right trim of a character list (Python `str.rstrip`). -/
def rtrimL (l : List Char) : List Char := (l.reverse.dropWhile wsChar).reverse

/-- Full trim of a character list. -/
def trimL (l : List Char) : List Char := rtrimL (ltrimL l)

/-- Python `str.strip()`. -/
def pstrip (s : String) : String := ⟨trimL s.data⟩

/-- Boolean prefix test on character lists. -/
def isPrefixL : List Char → List Char → Bool
  | [], _ => true
  | _ :: _, [] => false
  | a :: as, b :: bs => a = b && isPrefixL as bs

/-- Python `s.startswith(p)`. -/
def pStartsWith (s p : String) : Bool := isPrefixL p.data s.data

/-- Fuel-driven scan for `replaceAllL`: on a pattern match, skip the
pattern and continue after it, otherwise keep one character and move on. -/
def replaceAllGo (p r : List Char) : Nat → List Char → List Char
  | _, [] => []
  | 0, s => s
  | fuel + 1, c :: cs =>
    if isPrefixL p (c :: cs) then
      r ++ replaceAllGo p r fuel (cs.drop (p.length - 1))
    else c :: replaceAllGo p r fuel cs

/-- Replace every (leftmost, non-overlapping) occurrence of the non-empty
pattern `p` in `s` by `r`; on an empty pattern return `s` unchanged.  The
fuel `s.length` is always sufficient: every step consumes at least one
character of `s`. -/
def replaceAllL (p s r : List Char) : List Char :=
  match p with
  | [] => s
  | _ :: _ => replaceAllGo p r s.length s

/-- Python `s.replace(p, r)` on strings. -/
def pyReplace (s p r : String) : String := ⟨replaceAllL p.data s.data r.data⟩

/-- Boolean substring containment on character lists. -/
def containsSubL (p : List Char) : List Char → Bool
  | [] => isPrefixL p []
  | c :: cs => isPrefixL p (c :: cs) || containsSubL p cs

/-- Python `p in s` (substring containment). -/
def pyContains (s p : String) : Bool := containsSubL p.data s.data

/-- Python `content.split("\n")` on character lists: always returns at least
one piece. -/
def splitNlAux : List Char → List Char → List String
  | [], acc => [⟨acc.reverse⟩]
  | c :: cs, acc =>
    if c = '\n' then ⟨acc.reverse⟩ :: splitNlAux cs []
    else splitNlAux cs (c :: acc)

/-- Python `content.split("\n")`. -/
def pySplitLines (s : String) : List String := splitNlAux s.data []

/-- The character class `[A-Z0-9]` (ASCII, as in the source regex). -/
def isUpperAlnum (c : Char) : Bool := ('A' ≤ c && c ≤ 'Z') || c.isDigit

/-- Model of `re.match(r"\d+\.", s)` as a Boolean: one or more digits followed by a
dot, at the start of the string. -/
def matchNumDot (s : String) : Bool :=
  match s.data.takeWhile Char.isDigit, s.data.dropWhile Char.isDigit with
  | [], _ => false
  | _ :: _, '.' :: _ => true
  | _ :: _, _ => false

/-- Model of `re.match(r"\d+\. ([A-Z0-9]+) - (.+)", s)`: on success, the two capture
groups.  Greedy matching of `\d+` and `[A-Z0-9]+` coincides with maximal
munch here because the character after each run cannot belong to the
preceding class. -/
def recordMatch (s : String) : Option (String × String) :=
  match s.data.takeWhile Char.isDigit, s.data.dropWhile Char.isDigit with
  | [], _ => none
  | _ :: _, '.' :: ' ' :: r2 =>
    match r2.takeWhile isUpperAlnum, r2.dropWhile isUpperAlnum with
    | [], _ => none
    | g1, ' ' :: '-' :: ' ' :: g2 =>
      if g2.isEmpty then none else some (⟨g1⟩, ⟨g2⟩)
    | _, _ => none
  | _ :: _, _ => none

/-- One parsed series entry (the dict appended to `results`). -/
structure SeriesRecord where
  series_id : String
  title : String
  frequency : String
  units : String
  last_updated : String
  notes : String
deriving DecidableEq, Repr

/-- The mutable `metadata` dict during lookahead (notes are accumulated
separately in a list, as in the source). -/
structure MetaAcc where
  frequency : String
  units : String
  last_updated : String
deriving DecidableEq, Repr

/-- The result of `parse_search_result_file`: `result_count` is `none` on the
early-return path (`if not lines`), which lacks that key. -/
structure ParsedResult where
  query : String
  result_count : Option Nat
  results : List SeriesRecord
deriving DecidableEq, Repr

/-- Increment the consumed-line counter of a lookahead result. -/
def bump3 (x : MetaAcc × List String × Nat) : MetaAcc × List String × Nat :=
  (x.1, x.2.1, x.2.2 + 1)

/-- The inner `while j < len(lines)` metadata lookahead of
`convert_search_results.py`, lines 63-93.  `ls` is the list of lines from
position `j` on, `prev` the raw line at `j - 1`, `first` whether `j = i + 1`
(the record-start line is at `i`), `m` the metadata so far and `ns` the
`notes_lines` accumulator.  Returns the final metadata, notes lines, and the
number of lines consumed (`j - (i + 1)` at loop exit).  A trailing blank
line with nothing after it is skipped and the loop then exits, hence the
inlined value `(m, ns, 1)` in that branch. -/
def lookahead : List String → String → Bool → MetaAcc → List String →
    MetaAcc × List String × Nat
  | [], _, _, m, ns => (m, ns, 0)
  | r :: rest, prev, first, m, ns =>
    let s := pstrip r
    if s = "" then
      match rest with
      | r2 :: rest2 =>
        if matchNumDot (pstrip r2) then (m, ns, 0)
        else bump3 (lookahead (r2 :: rest2) r false m ns)
      | [] => (m, ns, 1)
    else if matchNumDot s then (m, ns, 0)
    else if pStartsWith s "Units: " then
      bump3 (lookahead rest r false
        { m with units := pstrip (pyReplace s "Units: " "") } ns)
    else if pStartsWith s "Frequency: " then
      bump3 (lookahead rest r false
        { m with frequency := pstrip (pyReplace s "Frequency: " "") } ns)
    else if pStartsWith s "Last Updated: " then
      bump3 (lookahead rest r false
        { m with last_updated := pstrip (pyReplace s "Last Updated: " "") } ns)
    else if pStartsWith s "Notes: " then
      bump3 (lookahead rest r false m
        (if pstrip (pyReplace s "Notes: " "") ≠ "No description available"
         then ns ++ [pstrip (pyReplace s "Notes: " "")] else ns))
    else
      bump3 (lookahead rest r false m
        (if ns ≠ [] ∨ (first = false ∧ pyContains prev "Notes:" = true)
         then ns ++ [s] else ns))

/-- Python `" ".join`. -/
def joinSpace : List String → String
  | [] => ""
  | [x] => x
  | x :: y :: xs => x ++ " " ++ joinSpace (y :: xs)

/-- The header test of line 41: `line.startswith(("FRED Series", "Query:",
"Timestamp:", "Total Results:"))`. -/
def isHeaderLine (s : String) : Bool :=
  pStartsWith s "FRED Series" || pStartsWith s "Query:" ||
  pStartsWith s "Timestamp:" || pStartsWith s "Total Results:"

/-- The `notes` value assembled after lookahead (lines 96-97). -/
def notesJoin (ns : List String) : String :=
  if ns.isEmpty then "" else pstrip (joinSpace ns)

/-- The outer `while i < len(lines)` scan of `convert_search_results.py`,
lines 37-108, producing the ordered `results` list. -/
def scanRecords (ls : List String) : List SeriesRecord :=
  match ls with
  | [] => []
  | l :: rest =>
    let s := pstrip l
    if s = "" || isHeaderLine s then scanRecords rest
    else
      match recordMatch s with
      | some g =>
        let x := lookahead rest l true ⟨"", "", ""⟩ []
        { series_id := pstrip g.1, title := pstrip g.2,
          frequency := x.1.frequency, units := x.1.units,
          last_updated := x.1.last_updated,
          notes := notesJoin x.2.1 } :: scanRecords (rest.drop x.2.2)
      | none => scanRecords rest
termination_by ls.length
decreasing_by
  all_goals simp [List.length_drop]
  all_goals omega

/-- The `for line in lines[:10]` query-extraction loop body, lines 29-32. -/
def queryLoop : List String → Option String
  | [] => none
  | l :: rest =>
    if pStartsWith l "Query: " then some (pstrip (pyReplace l "Query: " ""))
    else queryLoop rest

/-- Query extraction, lines 28-32: first of the first ten raw lines starting
with `Query: `, else the fallback. -/
def queryOf (ls : List String) (fb : String) : String :=
  (queryLoop (ls.take 10)).getD fb

/-- Parsing an in-memory list of lines (everything of
`parse_search_result_file` after the `split`, minus the unreachable
`if not lines` early return). -/
def parseLines (ls : List String) (fb : String) : ParsedResult :=
  { query := queryOf ls fb,
    result_count := some (scanRecords ls).length,
    results := scanRecords ls }

/-- The function `parse_search_result_file` of `convert_search_results.py`, lines 12-114,
with the file contents and the fallback label (`file_path.stem`) passed in
place of the path. -/
def parse_search_result_file (content fb : String) : ParsedResult :=
  if pySplitLines (pstrip content) = [] then
    { query := fb, result_count := none, results := [] }
  else parseLines (pySplitLines (pstrip content)) fb

/-! The same parser as transcribed from
`convert_search_results_markdown.py`, lines 12-99 (the Markdown driver's
copy of `parse_search_result_file`). -/

/-- The metadata lookahead of `convert_search_results_markdown.py`,
lines 51-77. -/
def md_lookahead : List String → String → Bool → MetaAcc → List String →
    MetaAcc × List String × Nat
  | [], _, _, m, ns => (m, ns, 0)
  | r :: rest, prev, first, m, ns =>
    let s := pstrip r
    if s = "" then
      match rest with
      | r2 :: rest2 =>
        if matchNumDot (pstrip r2) then (m, ns, 0)
        else bump3 (md_lookahead (r2 :: rest2) r false m ns)
      | [] => (m, ns, 1)
    else if matchNumDot s then (m, ns, 0)
    else if pStartsWith s "Units: " then
      bump3 (md_lookahead rest r false
        { m with units := pstrip (pyReplace s "Units: " "") } ns)
    else if pStartsWith s "Frequency: " then
      bump3 (md_lookahead rest r false
        { m with frequency := pstrip (pyReplace s "Frequency: " "") } ns)
    else if pStartsWith s "Last Updated: " then
      bump3 (md_lookahead rest r false
        { m with last_updated := pstrip (pyReplace s "Last Updated: " "") } ns)
    else if pStartsWith s "Notes: " then
      bump3 (md_lookahead rest r false m
        (if pstrip (pyReplace s "Notes: " "") ≠ "No description available"
         then ns ++ [pstrip (pyReplace s "Notes: " "")] else ns))
    else
      bump3 (md_lookahead rest r false m
        (if ns ≠ [] ∨ (first = false ∧ pyContains prev "Notes:" = true)
         then ns ++ [s] else ns))

/-- The outer scan of `convert_search_results_markdown.py`, lines 29-93. -/
def md_scanRecords (ls : List String) : List SeriesRecord :=
  match ls with
  | [] => []
  | l :: rest =>
    let s := pstrip l
    if s = "" || isHeaderLine s then md_scanRecords rest
    else
      match recordMatch s with
      | some g =>
        let x := md_lookahead rest l true ⟨"", "", ""⟩ []
        { series_id := pstrip g.1, title := pstrip g.2,
          frequency := x.1.frequency, units := x.1.units,
          last_updated := x.1.last_updated,
          notes := notesJoin x.2.1 } :: md_scanRecords (rest.drop x.2.2)
      | none => md_scanRecords rest
termination_by ls.length
decreasing_by
  all_goals simp [List.length_drop]
  all_goals omega

/-- The query-extraction loop of `convert_search_results_markdown.py`,
lines 21-24. -/
def md_queryLoop : List String → Option String
  | [] => none
  | l :: rest =>
    if pStartsWith l "Query: " then some (pstrip (pyReplace l "Query: " ""))
    else md_queryLoop rest

/-- Query extraction of the Markdown copy. -/
def md_queryOf (ls : List String) (fb : String) : String :=
  (md_queryLoop (ls.take 10)).getD fb

/-- Line-level parsing, Markdown copy. -/
def md_parseLines (ls : List String) (fb : String) : ParsedResult :=
  { query := md_queryOf ls fb,
    result_count := some (md_scanRecords ls).length,
    results := md_scanRecords ls }

/-- The function `parse_search_result_file` of `convert_search_results_markdown.py`,
lines 12-99. -/
def md_parse_search_result_file (content fb : String) : ParsedResult :=
  if pySplitLines (pstrip content) = [] then
    { query := fb, result_count := none, results := [] }
  else md_parseLines (pySplitLines (pstrip content)) fb

/-! Auxiliary descriptions used in the statements of the theorems. -/

/-- A stop position of the metadata lookahead: the line matches the bare
`\d+\.` pattern after stripping, or it is blank and the next line matches
`\d+\.` after stripping. -/
def stopHere : List String → Bool
  | [] => false
  | r :: rest =>
    if pstrip r = "" then
      match rest with
      | r2 :: _ => matchNumDot (pstrip r2)
      | [] => false
    else matchNumDot (pstrip r)

/-- Index of the first stop position among the suffixes of `ls` (the length
of `ls` if there is none). -/
def firstStop : List String → Nat
  | [] => 0
  | r :: rest => if stopHere (r :: rest) then 0 else firstStop rest + 1

/-- The record-start pattern as the spec's own words state it:
`^\d+\.\s+([A-Z0-9]+)\s+-\s+(.+)$` with a positive integer before the dot
(`\s` matches whitespace; the trailing `\s+(.+)$` after the dash matches
exactly when a whitespace character and at least one further character
follow). -/
def specRecordStart (s : String) : Bool :=
  let d := s.data.takeWhile Char.isDigit
  let r1 := s.data.dropWhile Char.isDigit
  if d.isEmpty then false
  else if d.all (fun c => c = '0') then false
  else
    match r1 with
    | '.' :: r2 =>
      let w1 := r2.takeWhile wsChar
      let r3 := r2.dropWhile wsChar
      if w1.isEmpty then false
      else
        let g1 := r3.takeWhile isUpperAlnum
        let r4 := r3.dropWhile isUpperAlnum
        if g1.isEmpty then false
        else
          let w2 := r4.takeWhile wsChar
          let r5 := r4.dropWhile wsChar
          if w2.isEmpty then false
          else
            match r5 with
            | '-' :: c :: _ :: _ => wsChar c
            | _ => false
    | _ => false

/-- The per-line metadata update for lines carrying one of the four known
prefixes (the `Units:` / `Frequency:` / `Last Updated:` branches; `Notes:`
and unprefixed lines leave the metadata unchanged). -/
def stepMeta (m : MetaAcc) (l : String) : MetaAcc :=
  if pStartsWith (pstrip l) "Units: " then
    { m with units := pstrip (pyReplace (pstrip l) "Units: " "") }
  else if pStartsWith (pstrip l) "Frequency: " then
    { m with frequency := pstrip (pyReplace (pstrip l) "Frequency: " "") }
  else if pStartsWith (pstrip l) "Last Updated: " then
    { m with last_updated := pstrip (pyReplace (pstrip l) "Last Updated: " "") }
  else m

/-- The notes contribution of a prefixed metadata line: the extracted text
of a `Notes:` line unless it is the sentinel, nothing otherwise. -/
def noteVal (l : String) : Option String :=
  if pStartsWith (pstrip l) "Units: " then none
  else if pStartsWith (pstrip l) "Frequency: " then none
  else if pStartsWith (pstrip l) "Last Updated: " then none
  else if pStartsWith (pstrip l) "Notes: " then
    if pstrip (pyReplace (pstrip l) "Notes: " "") ≠ "No description available"
    then some (pstrip (pyReplace (pstrip l) "Notes: " "")) else none
  else none

/-- A line that carries one of the four known metadata prefixes after
stripping. -/
def isPrefixedMeta (l : String) : Bool :=
  pStartsWith (pstrip l) "Units: " || pStartsWith (pstrip l) "Frequency: " ||
  pStartsWith (pstrip l) "Last Updated: " || pStartsWith (pstrip l) "Notes: "

/-- A `Notes:` line whose extracted text is exactly the sentinel
`No description available`. -/
def isSentinelNotes (l : String) : Bool :=
  pStartsWith (pstrip l) "Notes: " &&
  pstrip (pyReplace (pstrip l) "Notes: " "") = "No description available"

/-- A metadata line that can contribute nothing to `notes`: a field line,
a sentinel `Notes:` line, or a blank line. -/
def benignLine (l : String) : Bool :=
  pStartsWith (pstrip l) "Units: " || pStartsWith (pstrip l) "Frequency: " ||
  pStartsWith (pstrip l) "Last Updated: " || isSentinelNotes l ||
  pstrip l = ""

/-- The projection of a line to the capture groups of the record-start
regex (trimmed), when it matches after stripping. -/
def recordProj (l : String) : Option (String × String) :=
  (recordMatch (pstrip l)).map (fun g => (pstrip g.1, pstrip g.2))

/-- A `Units:` field line (after stripping). -/
def isUnitsLine (l : String) : Bool := pStartsWith (pstrip l) "Units: "

/-- A `Frequency:` field line (after stripping). -/
def isFreqLine (l : String) : Bool := pStartsWith (pstrip l) "Frequency: "

/-- A `Last Updated:` field line (after stripping). -/
def isLuLine (l : String) : Bool := pStartsWith (pstrip l) "Last Updated: "

/-- A `Notes:` field line (after stripping). -/
def isNotesLine (l : String) : Bool := pStartsWith (pstrip l) "Notes: "

/-- The stored field value of a `Units:` line. -/
def unitsVal (l : String) : String := pstrip (pyReplace (pstrip l) "Units: " "")

/-- The stored field value of a `Frequency:` line. -/
def freqVal (l : String) : String :=
  pstrip (pyReplace (pstrip l) "Frequency: " "")

/-- The stored field value of a `Last Updated:` line. -/
def luVal (l : String) : String :=
  pstrip (pyReplace (pstrip l) "Last Updated: " "")

/-!  ## Lemmas: the two copies of the parser agree  -/

theorem md_lookahead_eq (ls : List String) (p : String) (f : Bool) (m : MetaAcc)
    (ns : List String) : md_lookahead ls p f m ns = lookahead ls p f m ns := by
  induction ls, p, f, m, ns using md_lookahead.induct <;>
    (rw [md_lookahead.eq_def, lookahead.eq_def]; try simp_all +zetaDelta)

theorem md_scanRecords_eq (ls : List String) :
    md_scanRecords ls = scanRecords ls := by
  induction ls using md_scanRecords.induct <;>
    (rw [md_scanRecords.eq_def, scanRecords.eq_def];
     try simp_all +zetaDelta [md_lookahead_eq])

theorem md_parseLines_eq (ls : List String) (fb : String) :
    md_parseLines ls fb = parseLines ls fb := by
  have hq : md_queryLoop (ls.take 10) = queryLoop (ls.take 10) := by
    generalize ls.take 10 = t
    induction t with
    | nil => rfl
    | cons a t ih => simp [md_queryLoop, queryLoop, ih]
  simp [md_parseLines, parseLines, md_queryOf, queryOf, hq, md_scanRecords_eq]

/-!  ## Lemmas: trimming  -/

theorem dropWhile_dropWhile (p : Char → Bool) (l : List Char) :
    (l.dropWhile p).dropWhile p = l.dropWhile p := by
  induction l with
  | nil => rfl
  | cons a t ih =>
    by_cases h : p a = true
    · simp [List.dropWhile_cons, h, ih]
    · simp [List.dropWhile_cons, h]

theorem rtrimL_rtrimL (l : List Char) : rtrimL (rtrimL l) = rtrimL l := by
  unfold rtrimL
  rw [List.reverse_reverse, dropWhile_dropWhile]

theorem dropWhile_rtrimL_comm (l : List Char) :
    (rtrimL l).dropWhile wsChar = rtrimL (l.dropWhile wsChar) := by
  induction l with
  | nil => rfl
  | cons c t ih =>
    by_cases hc : wsChar c = true
    · rw [List.dropWhile_cons_of_pos hc]
      by_cases ht : rtrimL t = []
      · have hdt : t.reverse.dropWhile wsChar = [] := by
          have := congrArg List.reverse ht
          simpa [rtrimL] using this
        have : rtrimL (c :: t) = [] := by
          simp [rtrimL, List.dropWhile_append, hdt, hc]
        rw [this, ← ih, ht]
      · have hdt : t.reverse.dropWhile wsChar ≠ [] := by
          intro h
          exact ht (by simp [rtrimL, h])
        have : rtrimL (c :: t) = c :: rtrimL t := by
          simp [rtrimL, List.dropWhile_append, hdt]
        rw [this, List.dropWhile_cons_of_pos hc, ih]
    · rw [List.dropWhile_cons_of_neg hc]
      have : rtrimL (c :: t) = c :: rtrimL t := by
        by_cases hdt : t.reverse.dropWhile wsChar = []
        · simp [rtrimL, List.dropWhile_append, hdt, hc]
        · simp [rtrimL, List.dropWhile_append, hdt]
      rw [this, List.dropWhile_cons_of_neg hc]

theorem trimL_trimL (l : List Char) : trimL (trimL l) = trimL l := by
  unfold trimL ltrimL
  rw [dropWhile_rtrimL_comm, dropWhile_dropWhile, rtrimL_rtrimL]

theorem pstrip_pstrip (s : String) : pstrip (pstrip s) = pstrip s := by
  unfold pstrip
  exact congrArg String.mk (trimL_trimL s.data)

/-!  ## Lemmas: heads of matching lines  -/

theorem isPrefixL_head {a : Char} {as l : List Char}
    (h : isPrefixL (a :: as) l = true) : ∃ t, l = a :: t := by
  cases l with
  | nil => simp [isPrefixL] at h
  | cons b bs =>
    simp only [isPrefixL, Bool.and_eq_true, decide_eq_true_eq] at h
    exact ⟨bs, by rw [h.1]⟩

theorem pStartsWith_head {s p : String} {c : Char} {cs : List Char}
    (hp : p.data = c :: cs) (h : pStartsWith s p = true) :
    ∃ t, s.data = c :: t := by
  unfold pStartsWith at h
  rw [hp] at h
  exact isPrefixL_head h

theorem recordMatch_head_nondigit {s : String} {c : Char} {t : List Char}
    (hd : s.data = c :: t) (hc : c.isDigit = false) : recordMatch s = none := by
  unfold recordMatch
  rw [hd]
  simp [List.takeWhile_cons, hc]

theorem header_recordMatch {s : String} (h : isHeaderLine s = true) :
    recordMatch s = none := by
  unfold isHeaderLine at h
  simp only [Bool.or_eq_true] at h
  rcases h with ((h | h) | h) | h
  · have hp : ("FRED Series" : String).data = 'F' :: "RED Series".data := rfl
    obtain ⟨t, ht⟩ := pStartsWith_head hp h
    exact recordMatch_head_nondigit ht (by decide)
  · have hp : ("Query:" : String).data = 'Q' :: "uery:".data := rfl
    obtain ⟨t, ht⟩ := pStartsWith_head hp h
    exact recordMatch_head_nondigit ht (by decide)
  · have hp : ("Timestamp:" : String).data = 'T' :: "imestamp:".data := rfl
    obtain ⟨t, ht⟩ := pStartsWith_head hp h
    exact recordMatch_head_nondigit ht (by decide)
  · have hp : ("Total Results:" : String).data = 'T' :: "otal Results:".data := rfl
    obtain ⟨t, ht⟩ := pStartsWith_head hp h
    exact recordMatch_head_nondigit ht (by decide)

theorem recordMatch_numDot {s : String} {g : String × String}
    (h : recordMatch s = some g) : matchNumDot s = true := by
  unfold recordMatch at h
  unfold matchNumDot
  split at h
  · exact absurd h (by simp)
  · simp_all
  · exact absurd h (by simp)

theorem recordMatch_of_blank {s : String} (h : s = "") : recordMatch s = none := by
  rw [h]
  rfl

/-!  ## Lemmas: how far the lookahead runs  -/

theorem lookahead_consumed (ls : List String) (p : String) (f : Bool)
    (m : MetaAcc) (ns : List String) :
    (lookahead ls p f m ns).2.2 = firstStop ls := by
  induction ls, p, f, m, ns using lookahead.induct <;>
    (rw [lookahead.eq_def]; try simp_all +zetaDelta [firstStop, stopHere, bump3])

theorem firstStop_le (ls : List String) : firstStop ls ≤ ls.length := by
  induction ls with
  | nil => simp [firstStop]
  | cons r rest ih =>
    by_cases h : stopHere (r :: rest)
    · simp [firstStop, h]
    · simp [firstStop, h]
      omega

theorem recordMatch_of_mem_take_firstStop {ls : List String} {l : String}
    (h : l ∈ ls.take (firstStop ls)) : recordMatch (pstrip l) = none := by
  induction ls with
  | nil => simp [firstStop] at h
  | cons r rest ih =>
    by_cases hs : stopHere (r :: rest)
    · simp [firstStop, hs] at h
    · simp only [firstStop, if_neg hs, List.take_succ_cons] at h
      rcases List.mem_cons.mp h with rfl | h'
      · by_cases hb : pstrip l = ""
        · exact recordMatch_of_blank hb
        · have hnd : matchNumDot (pstrip l) = false := by
            simp only [stopHere, if_neg hb] at hs
            simpa using hs
          cases hg : recordMatch (pstrip l) with
          | none => rfl
          | some g => exact absurd (recordMatch_numDot hg) (by simp [hnd])
      · exact ih h'

/-!  ## Lemmas: which lines produce records  -/

theorem recordProj_of_blank {l : String} (h : pstrip l = "") :
    recordProj l = none := by
  simp [recordProj, recordMatch_of_blank h]

theorem recordProj_of_header {l : String} (h : isHeaderLine (pstrip l) = true) :
    recordProj l = none := by
  simp [recordProj, header_recordMatch h]

theorem scan_proj (ls : List String) :
    (scanRecords ls).map (fun r => (r.series_id, r.title)) =
      ls.filterMap recordProj := by
  induction ls using scanRecords.induct with
  | case1 => simp [scanRecords]
  | case2 l rest s hcond ih =>
    have hnone : recordProj l = none := by
      rcases Bool.or_eq_true_iff.mp hcond with hb | hh
      · exact recordProj_of_blank (by simpa using hb)
      · exact recordProj_of_header hh
    rw [scanRecords.eq_def]
    simp_all +zetaDelta [List.filterMap_cons]
  | case3 l rest s hcond g hg x ih =>
    have hk : (lookahead rest l true ⟨"", "", ""⟩ []).2.2 = firstStop rest :=
      lookahead_consumed rest l true ⟨"", "", ""⟩ []
    have htake :
        (rest.take (lookahead rest l true ⟨"", "", ""⟩ []).2.2).filterMap
          recordProj = [] := by
      rw [hk]
      refine List.filterMap_eq_nil_iff.mpr (fun a ha => ?_)
      simp [recordProj, recordMatch_of_mem_take_firstStop ha]
    have hsplit : rest.filterMap recordProj =
        (rest.drop (lookahead rest l true ⟨"", "", ""⟩ []).2.2).filterMap
          recordProj := by
      conv_lhs =>
        rw [← List.take_append_drop (lookahead rest l true ⟨"", "", ""⟩ []).2.2
          rest]
      rw [List.filterMap_append, htake, List.nil_append]
    have hsome : recordProj l = some (pstrip g.1, pstrip g.2) := by
      simp [recordProj, hg]
    rw [scanRecords.eq_def]
    simp_all +zetaDelta [List.filterMap_cons]
  | case4 l rest s hcond hg ih =>
    have hnone : recordProj l = none := by
      simp [recordProj, hg]
    rw [scanRecords.eq_def]
    simp_all +zetaDelta [List.filterMap_cons]

/-!  ## Lemmas: query extraction  -/

theorem queryLoop_eq_find (ls : List String) :
    queryLoop ls = (ls.find? (fun l => pStartsWith l "Query: ")).map
      (fun l => pstrip (pyReplace l "Query: " "")) := by
  induction ls with
  | nil => rfl
  | cons a t ih =>
    by_cases h : pStartsWith a "Query: " = true
    · simp [queryLoop, List.find?_cons, h]
    · simp only [Bool.not_eq_true] at h
      simp [queryLoop, List.find?_cons, h, ih]

/-!  ## Lemmas: disequalities from head characters  -/

theorem pStartsWith_ne_head {s p : String} {a c : Char} {as t : List Char}
    (hp : p.data = a :: as) (hs : s.data = c :: t) (hne : a ≠ c) :
    pStartsWith s p = false := by
  unfold pStartsWith
  rw [hp, hs]
  simp [isPrefixL, hne]

theorem matchNumDot_head_nondigit {s : String} {c : Char} {t : List Char}
    (hd : s.data = c :: t) (hc : c.isDigit = false) : matchNumDot s = false := by
  unfold matchNumDot
  rw [hd]
  simp [List.takeWhile_cons, hc]

theorem matchNumDot_of_blank {s : String} (h : s = "") : matchNumDot s = false := by
  rw [h]
  rfl

theorem benign_not_numdot {l : String} (h : benignLine l = true) :
    matchNumDot (pstrip l) = false := by
  unfold benignLine at h
  simp only [Bool.or_eq_true] at h
  rcases h with (((h | h) | h) | h) | h
  · have hp : ("Units: " : String).data = 'U' :: "nits: ".data := rfl
    obtain ⟨t, ht⟩ := pStartsWith_head hp h
    exact matchNumDot_head_nondigit ht (by decide)
  · have hp : ("Frequency: " : String).data = 'F' :: "requency: ".data := rfl
    obtain ⟨t, ht⟩ := pStartsWith_head hp h
    exact matchNumDot_head_nondigit ht (by decide)
  · have hp : ("Last Updated: " : String).data = 'L' :: "ast Updated: ".data := rfl
    obtain ⟨t, ht⟩ := pStartsWith_head hp h
    exact matchNumDot_head_nondigit ht (by decide)
  · have hp : ("Notes: " : String).data = 'N' :: "otes: ".data := rfl
    unfold isSentinelNotes at h
    obtain ⟨t, ht⟩ := pStartsWith_head hp (Bool.and_elim_left h)
    exact matchNumDot_head_nondigit ht (by decide)
  · exact matchNumDot_of_blank (by simpa using h)

/-!  ## Lemmas: individual lookahead branches  -/

theorem lookahead_continuation (r : String) (rest : List String) (prev : String)
    (first : Bool) (m : MetaAcc) (ns : List String)
    (h0 : pstrip r ≠ "") (h1 : matchNumDot (pstrip r) = false)
    (h2 : pStartsWith (pstrip r) "Units: " = false)
    (h3 : pStartsWith (pstrip r) "Frequency: " = false)
    (h4 : pStartsWith (pstrip r) "Last Updated: " = false)
    (h5 : pStartsWith (pstrip r) "Notes: " = false) :
    lookahead (r :: rest) prev first m ns =
      bump3 (lookahead rest r false m
        (if ns ≠ [] ∨ (first = false ∧ pyContains prev "Notes:" = true)
         then ns ++ [pstrip r] else ns)) := by
  rw [lookahead.eq_def]
  simp +zetaDelta [h0, h1, h2, h3, h4, h5]

theorem lookahead_sentinel (r : String) (rest : List String) (prev : String)
    (first : Bool) (m : MetaAcc) (ns : List String)
    (h1 : pStartsWith (pstrip r) "Notes: " = true)
    (h2 : pstrip (pyReplace (pstrip r) "Notes: " "") = "No description available") :
    lookahead (r :: rest) prev first m ns =
      bump3 (lookahead rest r false m ns) := by
  have hp : ("Notes: " : String).data = 'N' :: "otes: ".data := rfl
  obtain ⟨t, ht⟩ := pStartsWith_head hp h1
  have h0 : pstrip r ≠ "" := by
    intro he
    rw [he] at ht
    simp at ht
  have hnd : matchNumDot (pstrip r) = false :=
    matchNumDot_head_nondigit ht (by decide)
  have hU : pStartsWith (pstrip r) "Units: " = false :=
    pStartsWith_ne_head rfl ht (by decide)
  have hF : pStartsWith (pstrip r) "Frequency: " = false :=
    pStartsWith_ne_head rfl ht (by decide)
  have hL : pStartsWith (pstrip r) "Last Updated: " = false :=
    pStartsWith_ne_head rfl ht (by decide)
  rw [lookahead.eq_def]
  simp +zetaDelta [h0, hnd, hU, hF, hL, h1, h2]

/-!  ## Lemmas: runs of benign metadata lines  -/

theorem lookahead_benign_notes (ls : List String) :
    ∀ (prev : String) (first : Bool) (m : MetaAcc) (ns : List String),
    (∀ l ∈ ls, benignLine l = true) → ns = [] →
    (lookahead ls prev first m ns).2.1 = [] := by
  induction ls with
  | nil =>
    intro prev first m ns _ hns
    simp [lookahead, hns]
  | cons r t ih =>
    intro prev first m ns hb hns
    subst hns
    have hr := hb r (List.mem_cons_self r t)
    have htl : ∀ l ∈ t, benignLine l = true :=
      fun l hl => hb l (List.mem_cons_of_mem r hl)
    rw [lookahead.eq_def]
    by_cases hblank : pstrip r = ""
    · cases t with
      | nil => simp +zetaDelta [hblank]
      | cons r2 t2 =>
        have hnd2 : matchNumDot (pstrip r2) = false :=
          benign_not_numdot (htl r2 (List.mem_cons_self r2 t2))
        simp +zetaDelta [hblank, hnd2, bump3]
        exact ih r false m [] htl rfl
    · have hnd : matchNumDot (pstrip r) = false := benign_not_numdot hr
      by_cases hU : pStartsWith (pstrip r) "Units: " = true
      · simp +zetaDelta [hblank, hnd, hU, bump3]
        exact ih r false _ [] htl rfl
      · by_cases hF : pStartsWith (pstrip r) "Frequency: " = true
        · simp +zetaDelta [hblank, hnd, hU, hF, bump3]
          exact ih r false _ [] htl rfl
        · by_cases hL : pStartsWith (pstrip r) "Last Updated: " = true
          · simp +zetaDelta [hblank, hnd, hU, hF, hL, bump3]
            exact ih r false _ [] htl rfl
          · by_cases hN : pStartsWith (pstrip r) "Notes: " = true
            · have hsent : pstrip (pyReplace (pstrip r) "Notes: " "") =
                  "No description available" := by
                unfold benignLine isSentinelNotes at hr
                simp only [Bool.or_eq_true, Bool.and_eq_true] at hr
                rcases hr with (((h | h) | h) | h) | h
                · exact absurd h (by simp [hU])
                · exact absurd h (by simp [hF])
                · exact absurd h (by simp [hL])
                · simpa using h.2
                · exact absurd h (by simp [hblank])
              simp +zetaDelta [hblank, hnd, hU, hF, hL, hN, hsent, bump3]
              exact ih r false m [] htl rfl
            · exfalso
              unfold benignLine isSentinelNotes at hr
              simp only [Bool.or_eq_true, Bool.and_eq_true] at hr
              rcases hr with (((h | h) | h) | h) | h
              · exact absurd h (by simp [hU])
              · exact absurd h (by simp [hF])
              · exact absurd h (by simp [hL])
              · exact absurd h.1 (by simp [hN])
              · exact absurd h (by simp [hblank])

theorem benign_firstStop (ls : List String)
    (h : ∀ l ∈ ls, benignLine l = true) : firstStop ls = ls.length := by
  induction ls with
  | nil => rfl
  | cons r t ih =>
    have hs : stopHere (r :: t) = false := by
      simp only [stopHere]
      by_cases hb : pstrip r = ""
      · rw [if_pos hb]
        cases t with
        | nil => rfl
        | cons r2 t2 =>
          exact benign_not_numdot (h r2 (by simp))
      · rw [if_neg hb]
        exact benign_not_numdot (h r (by simp))
    have := ih (fun l hl => h l (by simp [hl]))
    simp [firstStop, hs, this]

theorem recordMatch_ne_blank {s : String} {g : String × String}
    (hg : recordMatch s = some g) : ¬(s = "") := by
  intro he
  rw [recordMatch_of_blank he] at hg
  exact Option.noConfusion hg

theorem recordMatch_not_header {s : String} {g : String × String}
    (hg : recordMatch s = some g) : isHeaderLine s = false := by
  cases hh : isHeaderLine s with
  | false => rfl
  | true =>
    rw [header_recordMatch hh] at hg
    exact Option.noConfusion hg

theorem sentinel_only_notes (start : String) (rest : List String) (fb : String)
    (g : String × String) (hg : recordMatch (pstrip start) = some g)
    (hb : ∀ l ∈ rest, benignLine l = true) :
    (parseLines (start :: rest) fb).results.map SeriesRecord.notes = [""] := by
  have hne := recordMatch_ne_blank hg
  have hhd := recordMatch_not_header hg
  have hns : (lookahead rest start true ⟨"", "", ""⟩ []).2.1 = [] :=
    lookahead_benign_notes rest start true ⟨"", "", ""⟩ [] hb rfl
  have hk : (lookahead rest start true ⟨"", "", ""⟩ []).2.2 = rest.length := by
    rw [lookahead_consumed, benign_firstStop rest hb]
  show (scanRecords (start :: rest)).map SeriesRecord.notes = [""]
  rw [scanRecords.eq_def]
  simp +zetaDelta [hne, hhd, hg, hns, hk, List.drop_length, notesJoin,
    scanRecords]

/-!  ## Lemmas: generic facts about lists and heads  -/

theorem takeWhile_cons_head {α : Type} {p : α → Bool} {l : List α} {d : α}
    {ds : List α} (h : l.takeWhile p = d :: ds) :
    ∃ t, l = d :: t ∧ p d = true := by
  cases l with
  | nil => simp at h
  | cons x xs =>
    rw [List.takeWhile_cons] at h
    by_cases hp : p x = true
    · rw [if_pos hp] at h
      exact ⟨xs, by rw [(List.cons.injEq _ _ _ _).mp h |>.1], by
        rwa [← (List.cons.injEq _ _ _ _).mp h |>.1]⟩
    · rw [if_neg hp] at h
      exact absurd h (by simp)

theorem ne_blank_of_head {s : String} {c : Char} {t : List Char}
    (h : s.data = c :: t) : ¬(s = "") := by
  intro he
  rw [he] at h
  simp at h

theorem recordMatch_head_digit {s : String} {g : String × String}
    (h : recordMatch s = some g) :
    ∃ c t, s.data = c :: t ∧ c.isDigit = true := by
  unfold recordMatch at h
  split at h
  · exact absurd h (by simp)
  · next hA hB =>
    obtain ⟨t, ht, hd⟩ := takeWhile_cons_head hA
    exact ⟨_, t, ht, hd⟩
  · exact absurd h (by simp)

theorem trim_head_of_not_ws {c : Char} {t : List Char} (hc : wsChar c = false) :
    ∃ t2, trimL (c :: t) = c :: t2 := by
  have hcw : ¬wsChar c = true := by simp [hc]
  unfold trimL ltrimL rtrimL
  rw [List.dropWhile_cons_of_neg hcw, List.reverse_cons, List.dropWhile_append]
  by_cases he : (t.reverse.dropWhile wsChar).isEmpty = true
  · rw [if_pos he, List.dropWhile_cons_of_neg hcw]
    exact ⟨[], by simp⟩
  · rw [if_neg he]
    exact ⟨(t.reverse.dropWhile wsChar).reverse, by simp⟩

theorem length_filterMap_eq_countP {α β : Type} (f : α → Option β)
    (l : List α) :
    (l.filterMap f).length = l.countP (fun a => (f a).isSome) := by
  induction l with
  | nil => rfl
  | cons a t ih =>
    rw [List.filterMap_cons, List.countP_cons]
    cases hf : f a with
    | none => simp [hf, ih]
    | some b => simp [hf, ih]

theorem perm_eq_of_length_le_one {α : Type} {l1 l2 : List α}
    (h : l1.Perm l2) (hl : l1.length ≤ 1) : l1 = l2 := by
  cases l1 with
  | nil => exact h.nil_eq
  | cons a t =>
    cases t with
    | nil => exact (List.perm_singleton.mp h.symm).symm
    | cons b u => simp at hl

theorem find?_perm_of_countP_le_one {α : Type} {p : α → Bool}
    {l1 l2 : List α} (h : l1.Perm l2) (hc : l1.countP p ≤ 1) :
    l1.find? p = l2.find? p := by
  induction h with
  | nil => rfl
  | cons x hperm ih =>
    rw [List.find?_cons, List.find?_cons]
    cases hx : p x with
    | true => rfl
    | false =>
      apply ih
      rw [List.countP_cons, hx] at hc
      simpa using hc
  | swap x y l =>
    rw [List.find?_cons, List.find?_cons, List.find?_cons, List.find?_cons]
    cases hx : p x with
    | true =>
      cases hy : p y with
      | true =>
        exfalso
        rw [List.countP_cons, List.countP_cons, hx, hy] at hc
        simp at hc
      | false => rfl
    | false =>
      cases hy : p y with
      | true => rfl
      | false => rfl
  | trans h1 h2 ih1 ih2 =>
    rw [ih1 hc, ih2 (by rw [← h1.countP_eq p]; exact hc)]

/-!  ## Lemmas: prefixed metadata lines and the fold they induce  -/

theorem prefixed_not_numdot {l : String} (h : isPrefixedMeta l = true) :
    matchNumDot (pstrip l) = false := by
  unfold isPrefixedMeta at h
  simp only [Bool.or_eq_true] at h
  rcases h with ((h | h) | h) | h
  · have hp : ("Units: " : String).data = 'U' :: "nits: ".data := rfl
    obtain ⟨t, ht⟩ := pStartsWith_head hp h
    exact matchNumDot_head_nondigit ht (by decide)
  · have hp : ("Frequency: " : String).data = 'F' :: "requency: ".data := rfl
    obtain ⟨t, ht⟩ := pStartsWith_head hp h
    exact matchNumDot_head_nondigit ht (by decide)
  · have hp : ("Last Updated: " : String).data = 'L' :: "ast Updated: ".data := rfl
    obtain ⟨t, ht⟩ := pStartsWith_head hp h
    exact matchNumDot_head_nondigit ht (by decide)
  · have hp : ("Notes: " : String).data = 'N' :: "otes: ".data := rfl
    obtain ⟨t, ht⟩ := pStartsWith_head hp h
    exact matchNumDot_head_nondigit ht (by decide)

theorem prefixed_ne_blank {l : String} (h : isPrefixedMeta l = true) :
    pstrip l ≠ "" := by
  unfold isPrefixedMeta at h
  simp only [Bool.or_eq_true] at h
  rcases h with ((h | h) | h) | h
  · have hp : ("Units: " : String).data = 'U' :: "nits: ".data := rfl
    obtain ⟨t, ht⟩ := pStartsWith_head hp h
    exact ne_blank_of_head ht
  · have hp : ("Frequency: " : String).data = 'F' :: "requency: ".data := rfl
    obtain ⟨t, ht⟩ := pStartsWith_head hp h
    exact ne_blank_of_head ht
  · have hp : ("Last Updated: " : String).data = 'L' :: "ast Updated: ".data := rfl
    obtain ⟨t, ht⟩ := pStartsWith_head hp h
    exact ne_blank_of_head ht
  · have hp : ("Notes: " : String).data = 'N' :: "otes: ".data := rfl
    obtain ⟨t, ht⟩ := pStartsWith_head hp h
    exact ne_blank_of_head ht

theorem stepMeta_units (m : MetaAcc) (l : String) :
    (stepMeta m l).units =
      if isUnitsLine l = true then unitsVal l else m.units := by
  by_cases hU : isUnitsLine l = true
  · rw [if_pos hU]
    unfold stepMeta unitsVal
    rw [if_pos (by simpa [isUnitsLine] using hU)]
  · rw [if_neg hU]
    have hU2 : pStartsWith (pstrip l) "Units: " = false := by
      simpa [isUnitsLine] using hU
    unfold stepMeta
    split_ifs with a b c
    · exact absurd a (by simp [hU2])
    · rfl
    · rfl
    · rfl

theorem stepMeta_freq (m : MetaAcc) (l : String) :
    (stepMeta m l).frequency =
      if isFreqLine l = true then freqVal l else m.frequency := by
  by_cases hF : isFreqLine l = true
  · have hp : ("Frequency: " : String).data = 'F' :: "requency: ".data := rfl
    obtain ⟨t, ht⟩ := pStartsWith_head hp (by simpa [isFreqLine] using hF)
    have hU2 : pStartsWith (pstrip l) "Units: " = false :=
      pStartsWith_ne_head rfl ht (by decide)
    rw [if_pos hF]
    unfold stepMeta freqVal
    rw [if_neg (by simp [hU2]), if_pos (by simpa [isFreqLine] using hF)]
  · rw [if_neg hF]
    have hF2 : pStartsWith (pstrip l) "Frequency: " = false := by
      simpa [isFreqLine] using hF
    unfold stepMeta
    split_ifs with a b c
    · rfl
    · exact absurd b (by simp [hF2])
    · rfl
    · rfl

theorem stepMeta_lu (m : MetaAcc) (l : String) :
    (stepMeta m l).last_updated =
      if isLuLine l = true then luVal l else m.last_updated := by
  by_cases hL : isLuLine l = true
  · have hp : ("Last Updated: " : String).data = 'L' :: "ast Updated: ".data := rfl
    obtain ⟨t, ht⟩ := pStartsWith_head hp (by simpa [isLuLine] using hL)
    have hU2 : pStartsWith (pstrip l) "Units: " = false :=
      pStartsWith_ne_head rfl ht (by decide)
    have hF2 : pStartsWith (pstrip l) "Frequency: " = false :=
      pStartsWith_ne_head rfl ht (by decide)
    rw [if_pos hL]
    unfold stepMeta luVal
    rw [if_neg (by simp [hU2]), if_neg (by simp [hF2]),
      if_pos (by simpa [isLuLine] using hL)]
  · rw [if_neg hL]
    have hL2 : pStartsWith (pstrip l) "Last Updated: " = false := by
      simpa [isLuLine] using hL
    unfold stepMeta
    split_ifs with a b c
    · rfl
    · rfl
    · exact absurd c (by simp [hL2])
    · rfl

theorem foldl_units (L : List String) (m : MetaAcc) :
    (L.foldl stepMeta m).units =
      ((L.reverse.find? isUnitsLine).map unitsVal).getD m.units := by
  induction L generalizing m with
  | nil => rfl
  | cons r t ih =>
    rw [List.foldl_cons, ih, List.reverse_cons, List.find?_append]
    cases hf : t.reverse.find? isUnitsLine with
    | some x => simp [Option.or]
    | none =>
      cases hU : isUnitsLine r with
      | true => simp [Option.or, stepMeta_units, hU, List.find?_cons]
      | false => simp [Option.or, stepMeta_units, hU, List.find?_cons]

theorem foldl_freq (L : List String) (m : MetaAcc) :
    (L.foldl stepMeta m).frequency =
      ((L.reverse.find? isFreqLine).map freqVal).getD m.frequency := by
  induction L generalizing m with
  | nil => rfl
  | cons r t ih =>
    rw [List.foldl_cons, ih, List.reverse_cons, List.find?_append]
    cases hf : t.reverse.find? isFreqLine with
    | some x => simp [Option.or]
    | none =>
      cases hU : isFreqLine r with
      | true => simp [Option.or, stepMeta_freq, hU, List.find?_cons]
      | false => simp [Option.or, stepMeta_freq, hU, List.find?_cons]

theorem foldl_lu (L : List String) (m : MetaAcc) :
    (L.foldl stepMeta m).last_updated =
      ((L.reverse.find? isLuLine).map luVal).getD m.last_updated := by
  induction L generalizing m with
  | nil => rfl
  | cons r t ih =>
    rw [List.foldl_cons, ih, List.reverse_cons, List.find?_append]
    cases hf : t.reverse.find? isLuLine with
    | some x => simp [Option.or]
    | none =>
      cases hU : isLuLine r with
      | true => simp [Option.or, stepMeta_lu, hU, List.find?_cons]
      | false => simp [Option.or, stepMeta_lu, hU, List.find?_cons]

theorem lookahead_prefixed (L : List String) :
    ∀ (prev : String) (first : Bool) (m : MetaAcc) (ns : List String),
    (∀ l ∈ L, isPrefixedMeta l = true) →
    lookahead L prev first m ns =
      (L.foldl stepMeta m, ns ++ L.filterMap noteVal, L.length) := by
  induction L with
  | nil =>
    intro prev first m ns _
    simp [lookahead]
  | cons r t ih =>
    intro prev first m ns h
    have hr := h r (List.mem_cons_self r t)
    have htl : ∀ l ∈ t, isPrefixedMeta l = true :=
      fun l hl => h l (List.mem_cons_of_mem r hl)
    have hnb : pstrip r ≠ "" := prefixed_ne_blank hr
    have hnd : matchNumDot (pstrip r) = false := prefixed_not_numdot hr
    rw [lookahead.eq_def]
    by_cases hU : pStartsWith (pstrip r) "Units: " = true
    · have hstep : stepMeta m r =
          { m with units := pstrip (pyReplace (pstrip r) "Units: " "") } := by
        unfold stepMeta
        rw [if_pos hU]
      have hnv : noteVal r = none := by
        unfold noteVal
        rw [if_pos hU]
      simp +zetaDelta [hnb, hnd, hU, bump3, ih r false _ ns htl,
        List.foldl_cons, List.filterMap_cons, hstep, hnv]
    · by_cases hF : pStartsWith (pstrip r) "Frequency: " = true
      · have hstep : stepMeta m r =
            { m with frequency := pstrip (pyReplace (pstrip r) "Frequency: " "") } := by
          unfold stepMeta
          rw [if_neg hU, if_pos hF]
        have hnv : noteVal r = none := by
          unfold noteVal
          rw [if_neg hU, if_pos hF]
        simp +zetaDelta [hnb, hnd, hU, hF, bump3, ih r false _ ns htl,
          List.foldl_cons, List.filterMap_cons, hstep, hnv]
      · by_cases hL : pStartsWith (pstrip r) "Last Updated: " = true
        · have hstep : stepMeta m r =
              { m with last_updated := pstrip (pyReplace (pstrip r) "Last Updated: " "") } := by
            unfold stepMeta
            rw [if_neg hU, if_neg hF, if_pos hL]
          have hnv : noteVal r = none := by
            unfold noteVal
            rw [if_neg hU, if_neg hF, if_pos hL]
          simp +zetaDelta [hnb, hnd, hU, hF, hL, bump3, ih r false _ ns htl,
            List.foldl_cons, List.filterMap_cons, hstep, hnv]
        · by_cases hN : pStartsWith (pstrip r) "Notes: " = true
          · have hstep : stepMeta m r = m := by
              unfold stepMeta
              rw [if_neg hU, if_neg hF, if_neg hL]
            by_cases hsent : pstrip (pyReplace (pstrip r) "Notes: " "") =
                "No description available"
            · have hnv : noteVal r = none := by
                unfold noteVal
                rw [if_neg hU, if_neg hF, if_neg hL, if_pos hN]
                simp [hsent]
              simp +zetaDelta [hnb, hnd, hU, hF, hL, hN, hsent, bump3,
                ih r false _ ns htl, List.foldl_cons, List.filterMap_cons,
                hstep, hnv]
            · have hnv : noteVal r =
                  some (pstrip (pyReplace (pstrip r) "Notes: " "")) := by
                unfold noteVal
                rw [if_neg hU, if_neg hF, if_neg hL, if_pos hN]
                simp [hsent]
              simp +zetaDelta [hnb, hnd, hU, hF, hL, hN, hsent, bump3,
                ih r false _ _ htl, List.foldl_cons, List.filterMap_cons,
                hstep, hnv]
          · exfalso
            unfold isPrefixedMeta at hr
            simp only [Bool.or_eq_true] at hr
            rcases hr with ((h1 | h1) | h1) | h1
            · exact absurd h1 hU
            · exact absurd h1 hF
            · exact absurd h1 hL
            · exact absurd h1 hN

/-!  ## Lemmas: no line of a record block looks like a `Query:` header  -/

theorem pstrip_head_of_raw_head {s : String} {c : Char} {t : List Char}
    (hs : s.data = c :: t) (hc : wsChar c = false) :
    ∃ t2, (pstrip s).data = c :: t2 := by
  obtain ⟨t2, h2⟩ := @trim_head_of_not_ws c t hc
  refine ⟨t2, ?_⟩
  show trimL s.data = _
  rw [hs]
  exact h2

theorem query_false_of_record {start : String} {g : String × String}
    (hg : recordMatch (pstrip start) = some g) :
    pStartsWith start "Query: " = false := by
  cases hq : pStartsWith start "Query: " with
  | false => rfl
  | true =>
    exfalso
    have hp : ("Query: " : String).data = 'Q' :: "uery: ".data := rfl
    obtain ⟨t, ht⟩ := pStartsWith_head hp hq
    obtain ⟨c, t2, hct, hd⟩ := recordMatch_head_digit hg
    obtain ⟨t3, ht3⟩ := pstrip_head_of_raw_head ht (by decide)
    have hcq : c = 'Q' := by
      have := ht3.symm.trans hct
      exact ((List.cons.injEq _ _ _ _).mp this).1.symm
    rw [hcq] at hd
    exact absurd hd (by decide)

theorem query_false_of_prefixed {l : String} (h : isPrefixedMeta l = true) :
    pStartsWith l "Query: " = false := by
  cases hq : pStartsWith l "Query: " with
  | false => rfl
  | true =>
    exfalso
    have hp : ("Query: " : String).data = 'Q' :: "uery: ".data := rfl
    obtain ⟨t, ht⟩ := pStartsWith_head hp hq
    obtain ⟨t3, ht3⟩ := pstrip_head_of_raw_head ht (by decide)
    unfold isPrefixedMeta at h
    simp only [Bool.or_eq_true] at h
    rcases h with ((h | h) | h) | h
    · have hp2 : ("Units: " : String).data = 'U' :: "nits: ".data := rfl
      obtain ⟨u, hu⟩ := pStartsWith_head hp2 h
      have := hu.symm.trans ht3
      exact absurd ((List.cons.injEq _ _ _ _).mp this).1 (by decide)
    · have hp2 : ("Frequency: " : String).data = 'F' :: "requency: ".data := rfl
      obtain ⟨u, hu⟩ := pStartsWith_head hp2 h
      have := hu.symm.trans ht3
      exact absurd ((List.cons.injEq _ _ _ _).mp this).1 (by decide)
    · have hp2 : ("Last Updated: " : String).data = 'L' :: "ast Updated: ".data := rfl
      obtain ⟨u, hu⟩ := pStartsWith_head hp2 h
      have := hu.symm.trans ht3
      exact absurd ((List.cons.injEq _ _ _ _).mp this).1 (by decide)
    · have hp2 : ("Notes: " : String).data = 'N' :: "otes: ".data := rfl
      obtain ⟨u, hu⟩ := pStartsWith_head hp2 h
      have := hu.symm.trans ht3
      exact absurd ((List.cons.injEq _ _ _ _).mp this).1 (by decide)

theorem queryOf_eq_fb (ls : List String) (fb : String)
    (h : ∀ l ∈ ls, pStartsWith l "Query: " = false) : queryOf ls fb = fb := by
  unfold queryOf
  rw [queryLoop_eq_find]
  have hn : (ls.take 10).find? (fun l => pStartsWith l "Query: ") = none :=
    List.find?_eq_none.mpr (fun x hx => by
      simp [h x (List.mem_of_mem_take hx)])
  simp [hn]

theorem noteVal_isSome_isNotes {l : String}
    (h : (noteVal l).isSome = true) : isNotesLine l = true := by
  unfold noteVal at h
  unfold isNotesLine
  split_ifs at h with h1 h2 h3 h4 h5
  · simp at h
  · simp at h
  · simp at h
  · exact h4
  · exact h4
  · simp at h

theorem scan_single_prefixed (start : String) (L : List String)
    (g : String × String) (hg : recordMatch (pstrip start) = some g)
    (hpre : ∀ l ∈ L, isPrefixedMeta l = true) :
    scanRecords (start :: L) =
      [{ series_id := pstrip g.1, title := pstrip g.2,
         frequency := (L.foldl stepMeta ⟨"", "", ""⟩).frequency,
         units := (L.foldl stepMeta ⟨"", "", ""⟩).units,
         last_updated := (L.foldl stepMeta ⟨"", "", ""⟩).last_updated,
         notes := notesJoin (L.filterMap noteVal) }] := by
  rw [scanRecords.eq_def]
  simp +zetaDelta [recordMatch_ne_blank hg, recordMatch_not_header hg, hg,
    lookahead_prefixed L start true ⟨"", "", ""⟩ [] hpre, List.drop_length,
    scanRecords]

theorem parseLines_perm_prefixed (start : String) (L1 L2 : List String)
    (fb : String) (g : String × String)
    (hg : recordMatch (pstrip start) = some g)
    (hperm : L1.Perm L2)
    (hpre : ∀ l ∈ L1, isPrefixedMeta l = true)
    (hu : L1.countP isUnitsLine ≤ 1) (hf : L1.countP isFreqLine ≤ 1)
    (hlu : L1.countP isLuLine ≤ 1) (hn : L1.countP isNotesLine ≤ 1) :
    parseLines (start :: L1) fb = parseLines (start :: L2) fb := by
  have hpre2 : ∀ l ∈ L2, isPrefixedMeta l = true :=
    fun l hl => hpre l (hperm.mem_iff.mpr hl)
  have hrev : L1.reverse.Perm L2.reverse :=
    ((L1.reverse_perm).trans hperm).trans (L2.reverse_perm).symm
  have hfindU : L1.reverse.find? isUnitsLine = L2.reverse.find? isUnitsLine :=
    find?_perm_of_countP_le_one hrev
      (by rw [(L1.reverse_perm).countP_eq]; exact hu)
  have hfindF : L1.reverse.find? isFreqLine = L2.reverse.find? isFreqLine :=
    find?_perm_of_countP_le_one hrev
      (by rw [(L1.reverse_perm).countP_eq]; exact hf)
  have hfindL : L1.reverse.find? isLuLine = L2.reverse.find? isLuLine :=
    find?_perm_of_countP_le_one hrev
      (by rw [(L1.reverse_perm).countP_eq]; exact hlu)
  have hnotes : L1.filterMap noteVal = L2.filterMap noteVal := by
    apply perm_eq_of_length_le_one (hperm.filterMap noteVal)
    rw [length_filterMap_eq_countP]
    exact le_trans
      (List.countP_mono_left (fun x _ hx => noteVal_isSome_isNotes hx)) hn
  have hq1 : queryOf (start :: L1) fb = fb := by
    apply queryOf_eq_fb
    intro l hl
    rcases List.mem_cons.mp hl with rfl | hl2
    · exact query_false_of_record hg
    · exact query_false_of_prefixed (hpre l hl2)
  have hq2 : queryOf (start :: L2) fb = fb := by
    apply queryOf_eq_fb
    intro l hl
    rcases List.mem_cons.mp hl with rfl | hl2
    · exact query_false_of_record hg
    · exact query_false_of_prefixed (hpre2 l hl2)
  have hmu : (L1.foldl stepMeta ⟨"", "", ""⟩).units =
      (L2.foldl stepMeta ⟨"", "", ""⟩).units := by
    rw [foldl_units, foldl_units, hfindU]
  have hmf : (L1.foldl stepMeta ⟨"", "", ""⟩).frequency =
      (L2.foldl stepMeta ⟨"", "", ""⟩).frequency := by
    rw [foldl_freq, foldl_freq, hfindF]
  have hml : (L1.foldl stepMeta ⟨"", "", ""⟩).last_updated =
      (L2.foldl stepMeta ⟨"", "", ""⟩).last_updated := by
    rw [foldl_lu, foldl_lu, hfindL]
  unfold parseLines
  rw [scan_single_prefixed start L1 g hg hpre,
    scan_single_prefixed start L2 g hg hpre2, hq1, hq2, hmu, hmf, hml, hnotes]

/-!  ## Lemmas: every stored field is trimmed  -/

theorem pstrip_empty : pstrip "" = "" := rfl

theorem notesJoin_trimmed (ns : List String) :
    pstrip (notesJoin ns) = notesJoin ns := by
  unfold notesJoin
  by_cases h : ns.isEmpty = true
  · rw [if_pos h]
    rfl
  · rw [if_neg h]
    exact pstrip_pstrip _

theorem lookahead_meta_trimmed (ls : List String) :
    ∀ (prev : String) (first : Bool) (m : MetaAcc) (ns : List String),
    pstrip m.frequency = m.frequency → pstrip m.units = m.units →
    pstrip m.last_updated = m.last_updated →
    pstrip (lookahead ls prev first m ns).1.frequency =
        (lookahead ls prev first m ns).1.frequency ∧
      pstrip (lookahead ls prev first m ns).1.units =
        (lookahead ls prev first m ns).1.units ∧
      pstrip (lookahead ls prev first m ns).1.last_updated =
        (lookahead ls prev first m ns).1.last_updated := by
  induction ls with
  | nil =>
    intro prev first m ns h1 h2 h3
    exact ⟨h1, h2, h3⟩
  | cons r t ih =>
    intro prev first m ns h1 h2 h3
    rw [lookahead.eq_def]
    by_cases hb : pstrip r = ""
    · cases t with
      | nil => simpa +zetaDelta [hb] using ⟨h1, h2, h3⟩
      | cons r2 t2 =>
        by_cases hnd2 : matchNumDot (pstrip r2) = true
        · simpa +zetaDelta [hb, hnd2] using ⟨h1, h2, h3⟩
        · simpa +zetaDelta [hb, hnd2, bump3] using
            ih r false m ns h1 h2 h3
    · by_cases hnd : matchNumDot (pstrip r) = true
      · simpa +zetaDelta [hb, hnd] using ⟨h1, h2, h3⟩
      · by_cases hU : pStartsWith (pstrip r) "Units: " = true
        · simpa +zetaDelta [hb, hnd, hU, bump3] using
            ih r false
              { m with units := pstrip (pyReplace (pstrip r) "Units: " "") }
              ns h1 (pstrip_pstrip _) h3
        · by_cases hF : pStartsWith (pstrip r) "Frequency: " = true
          · simpa +zetaDelta [hb, hnd, hU, hF, bump3] using
              ih r false
                { m with frequency := pstrip (pyReplace (pstrip r) "Frequency: " "") }
                ns (pstrip_pstrip _) h2 h3
          · by_cases hL : pStartsWith (pstrip r) "Last Updated: " = true
            · simpa +zetaDelta [hb, hnd, hU, hF, hL, bump3] using
                ih r false
                  { m with last_updated := pstrip (pyReplace (pstrip r) "Last Updated: " "") }
                  ns h1 h2 (pstrip_pstrip _)
            · by_cases hN : pStartsWith (pstrip r) "Notes: " = true
              · simpa +zetaDelta [hb, hnd, hU, hF, hL, hN, bump3] using
                  ih r false m _ h1 h2 h3
              · simpa +zetaDelta [hb, hnd, hU, hF, hL, hN, bump3] using
                  ih r false m _ h1 h2 h3

theorem scan_trimmed (ls : List String) :
    ∀ r ∈ scanRecords ls,
    pstrip r.series_id = r.series_id ∧ pstrip r.title = r.title ∧
    pstrip r.frequency = r.frequency ∧ pstrip r.units = r.units ∧
    pstrip r.last_updated = r.last_updated ∧ pstrip r.notes = r.notes := by
  induction ls using scanRecords.induct with
  | case1 =>
    intro r hr
    simp [scanRecords] at hr
  | case2 l rest s hcond ih =>
    intro r hr
    rw [scanRecords.eq_def] at hr
    simp +zetaDelta [hcond] at hr
    exact ih r hr
  | case3 l rest s hcond g hg x ih =>
    intro r hr
    rw [scanRecords.eq_def] at hr
    simp +zetaDelta [hcond, hg] at hr
    rcases hr with rfl | hr2
    · refine ⟨pstrip_pstrip _, pstrip_pstrip _, ?_, ?_, ?_, ?_⟩
      · exact (lookahead_meta_trimmed rest l true ⟨"", "", ""⟩ [] rfl rfl rfl).1
      · exact (lookahead_meta_trimmed rest l true ⟨"", "", ""⟩ [] rfl rfl rfl).2.1
      · exact (lookahead_meta_trimmed rest l true ⟨"", "", ""⟩ [] rfl rfl rfl).2.2
      · exact notesJoin_trimmed _
    · exact ih r hr2
  | case4 l rest s hcond hg ih =>
    intro r hr
    rw [scanRecords.eq_def] at hr
    simp +zetaDelta [hcond, hg] at hr
    exact ih r hr

/-!  ## Lemmas: the split never returns an empty list  -/

theorem splitNlAux_ne_nil (l : List Char) :
    ∀ acc : List Char, splitNlAux l acc ≠ [] := by
  induction l with
  | nil =>
    intro acc
    simp [splitNlAux]
  | cons c cs ih =>
    intro acc
    unfold splitNlAux
    by_cases h : c = '\n'
    · simp [h]
    · simp only [h, if_false, if_neg h]
      exact ih _

theorem pySplitLines_ne_nil (s : String) : pySplitLines s ≠ [] :=
  splitNlAux_ne_nil s.data []

/-!  ## Claim theorems  -/

/-- C1 (counterexample): the lookahead does NOT only stop at full
record-start lines.  On the document `["1. ABC - First", "2. hello",
"Units: Percent"]` the lookahead for the first record stops immediately at
`"2. hello"` (consuming 0 lines), although that line is non-blank and does
not match the full record-start pattern — so the subsequent `Units:` line is
never attributed to the record, contrary to the claim. -/
theorem c1_counterexample :
    (lookahead ["2. hello", "Units: Percent"] "1. ABC - First" true
        ⟨"", "", ""⟩ []).2.2 = 0 ∧
      recordMatch (pstrip "2. hello") = none ∧
      pstrip "2. hello" ≠ "" ∧
      (parseLines ["1. ABC - First", "2. hello", "Units: Percent"]
          "q").results.map SeriesRecord.units = [""] := by
  refine ⟨by decide, by decide, by decide, ?_⟩
  have h1 : recordMatch (pstrip "1. ABC - First") = some ("ABC", "First") := by
    decide
  have h2 : recordMatch (pstrip "2. hello") = none := by decide
  have h3 : recordMatch (pstrip "Units: Percent") = none := by decide
  show (scanRecords _).map SeriesRecord.units = [""]
  rw [scanRecords.eq_def]
  simp +zetaDelta +decide [h1, h2, h3, scanRecords, lookahead, bump3]

/-- C1 (amended): the metadata lookahead stops exactly at the first line
whose stripped form matches the bare `\d+\.` pattern (digits then a dot), or
at a blank line whose immediately following line matches `\d+\.` after
stripping; matching the full record-start pattern is not required.  The
number of consumed lines equals `firstStop`, the index of the first such
stop position (or the whole suffix length when there is none), and is
independent of the accumulator state. -/
theorem c1_lookahead_stop_rule (ls : List String) (prev : String)
    (first : Bool) (m : MetaAcc) (ns : List String) :
    (lookahead ls prev first m ns).2.2 = firstStop ls :=
  lookahead_consumed ls prev first m ns

/-- C2 (counterexample): the spec's record-start regex
`^\d+\.\s+([A-Z0-9]+)\s+-\s+(.+)$` accepts `"1.  AB - T"` (two spaces after
the dot), but the code's regex `\d+\. ([A-Z0-9]+) - (.+)` requires exactly
one space, so no record is emitted for that line. -/
theorem c2_counterexample :
    specRecordStart (pstrip "1.  AB - T") = true ∧
      (parseLines ["1.  AB - T"] "q").results = [] := by
  refine ⟨by decide, ?_⟩
  have h1 : recordMatch (pstrip "1.  AB - T") = none := by decide
  show scanRecords _ = []
  rw [scanRecords.eq_def]
  simp +zetaDelta +decide [h1, scanRecords]

/-- C2 (amended): a `SeriesRecord` is emitted for a line if and only if the
trimmed line matches `\d+\. ([A-Z0-9]+) - (.+)` — exactly one space after
the dot and exactly one space on each side of the dash, with any non-empty
digit string (including `0`) accepted before the dot — and the emitted
records, in order and multiplicity, carry capture group 1 (trimmed) as id
and capture group 2 (trimmed) as title. -/
theorem c2_record_emission_rule (ls : List String) (fb : String) :
    ((parseLines ls fb).results).map (fun r => (r.series_id, r.title)) =
      ls.filterMap recordProj :=
  scan_proj ls

/-- C4 (counterexample): the query label is computed with
`line.replace("Query: ", "")`, which removes EVERY occurrence of
`"Query: "`, not just the leading prefix: the line
`"Query: a Query: b"` yields the label `"a b"`, not `"a Query: b"` as the
claim requires. -/
theorem c4_counterexample :
    (parseLines ["Query: a Query: b"] "fb").query = "a b" ∧
      ("a b" : String) ≠ "a Query: b" := by
  constructor
  · decide
  · decide

/-- C4 (amended): the query label equals the first line among the first ten
raw lines that begins with `"Query: "`, with ALL occurrences of the
substring `"Query: "` removed and the result trimmed; when no such line
exists the caller-supplied fallback is used. -/
theorem c4_query_extraction_rule (ls : List String) (fb : String) :
    (parseLines ls fb).query =
      (((ls.take 10).find? (fun l => pStartsWith l "Query: ")).map
        (fun l => pstrip (pyReplace l "Query: " ""))).getD fb := by
  show queryOf ls fb = _
  unfold queryOf
  rw [queryLoop_eq_find]

/-- C5: the parser is a total function on line lists (it is defined by
well-founded recursion, with no failure path), and a document none of whose
lines matches the record-start regex after trimming yields an empty results
list. -/
theorem c5_total_no_records (ls : List String) (fb : String)
    (h : ∀ l ∈ ls, recordMatch (pstrip l) = none) :
    (parseLines ls fb).results = [] := by
  have h2 : (scanRecords ls).map (fun r => (r.series_id, r.title)) = [] := by
    rw [scan_proj]
    exact List.filterMap_eq_nil_iff.mpr (fun a ha => by
      simp [recordProj, h a ha])
  exact List.map_eq_nil_iff.mp h2

/-- Witness for C5 at a concrete garbage document. -/
theorem c5_total_no_records_witness :
    (parseLines ["hello world", "", "not a record"] "q").results = [] :=
  c5_total_no_records ["hello world", "", "not a record"] "q" (by decide)

/-- C3 (counterexample): the absorption of a continuation line into the
notes accumulator is NOT decided by the stated disjunction alone: on
`["1. ABC - Notes: x", "cont"]` the line `"cont"` directly follows the
record-start line, whose raw text contains `"Notes:"`, so the claim's
disjunction holds — yet the code's additional `j > i + 1` guard rejects it
and the record's notes stay empty. -/
theorem c3_counterexample :
    pyContains "1. ABC - Notes: x" "Notes:" = true ∧
      (parseLines ["1. ABC - Notes: x", "cont"] "q").results.map
        SeriesRecord.notes = [""] := by
  refine ⟨by decide, ?_⟩
  have h1 : recordMatch (pstrip "1. ABC - Notes: x") =
      some ("ABC", "Notes: x") := by decide
  have h2 : recordMatch (pstrip "cont") = none := by decide
  show (scanRecords _).map SeriesRecord.notes = [""]
  rw [scanRecords.eq_def]
  simp +zetaDelta +decide [h1, h2, scanRecords, lookahead, bump3, notesJoin]

/-- C3 (amended): during lookahead, a non-blank line that is not a stop line
and carries none of the known prefixes is appended to the notes accumulator
if and only if the accumulator is already non-empty, OR the position is
strictly past the first lookahead position (`j > i + 1`) AND the
immediately preceding raw line contains the substring `"Notes:"`. -/
theorem c3_continuation_rule (r : String) (rest : List String)
    (prev : String) (first : Bool) (m : MetaAcc) (ns : List String)
    (h0 : pstrip r ≠ "") (h1 : matchNumDot (pstrip r) = false)
    (h2 : pStartsWith (pstrip r) "Units: " = false)
    (h3 : pStartsWith (pstrip r) "Frequency: " = false)
    (h4 : pStartsWith (pstrip r) "Last Updated: " = false)
    (h5 : pStartsWith (pstrip r) "Notes: " = false) :
    lookahead (r :: rest) prev first m ns =
      bump3 (lookahead rest r false m
        (if ns ≠ [] ∨ (first = false ∧ pyContains prev "Notes:" = true)
         then ns ++ [pstrip r] else ns)) :=
  lookahead_continuation r rest prev first m ns h0 h1 h2 h3 h4 h5

/-- Witness for C3's amended rule: past the first position, with an empty
accumulator, a continuation line after a raw line containing `"Notes:"` IS
absorbed. -/
theorem c3_continuation_rule_witness :
    lookahead ["cont"] "x Notes: y" false ⟨"", "", ""⟩ [] =
      (⟨"", "", ""⟩, ["cont"], 1) := by
  rw [c3_continuation_rule "cont" [] "x Notes: y" false ⟨"", "", ""⟩ []
    (by decide) (by decide) (by decide) (by decide) (by decide) (by decide)]
  decide

/-- C6: the two textual copies of `parse_search_result_file` — the one in
the JSON converter and the one in the Markdown converter — are extensionally
equal: on every document and fallback label they return identical query
labels, result counts and ordered record lists. -/
theorem c6_duplicate_parsers_agree (content fb : String) :
    parse_search_result_file content fb =
      md_parse_search_result_file content fb := by
  unfold parse_search_result_file md_parse_search_result_file
  rw [md_parseLines_eq]

/-- C7: sentinel `Notes:` lines contribute nothing.  First conjunct: a line
whose stripped form starts with `"Notes: "` and whose extracted text is
exactly `"No description available"` leaves both the metadata and the notes
accumulator unchanged (the lookahead just moves past it).  Second conjunct:
a record whose trailing metadata consists only of field lines, sentinel
`Notes:` lines and blanks has `notes = ""`. -/
theorem c7_sentinel_elision :
    (∀ (r : String) (rest : List String) (prev : String) (first : Bool)
        (m : MetaAcc) (ns : List String),
      pStartsWith (pstrip r) "Notes: " = true →
      pstrip (pyReplace (pstrip r) "Notes: " "") =
        "No description available" →
      lookahead (r :: rest) prev first m ns =
        bump3 (lookahead rest r false m ns)) ∧
    (∀ (start : String) (rest : List String) (fb : String)
        (g : String × String),
      recordMatch (pstrip start) = some g →
      (∀ l ∈ rest, benignLine l = true) →
      (parseLines (start :: rest) fb).results.map SeriesRecord.notes
        = [""]) :=
  ⟨fun r rest prev first m ns h1 h2 =>
      lookahead_sentinel r rest prev first m ns h1 h2,
    fun start rest fb g hg hb => sentinel_only_notes start rest fb g hg hb⟩

/-- Witness for C7 at concrete inputs: the sentinel line is skipped without
touching the accumulators, and a record whose only notes-bearing line is a
sentinel gets empty notes. -/
theorem c7_sentinel_elision_witness :
    lookahead ["Notes: No description available", "Units: P"] "1. A1 - T"
        true ⟨"", "", ""⟩ [] =
      bump3 (lookahead ["Units: P"] "Notes: No description available" false
        ⟨"", "", ""⟩ []) ∧
    (parseLines ["1. ABC - T", "Notes: No description available"]
        "q").results.map SeriesRecord.notes = [""] :=
  ⟨c7_sentinel_elision.1 "Notes: No description available" ["Units: P"]
      "1. A1 - T" true ⟨"", "", ""⟩ [] (by decide) (by decide),
    c7_sentinel_elision.2 "1. ABC - T" ["Notes: No description available"]
      "q" ("ABC", "T") (by decide) (by decide)⟩

/-- C8: for a record-start line followed by a run of prefixed metadata lines
in which each of the four prefixes occurs at most once, every permutation of
the run parses to the same result (same id, title, frequency, units,
last-updated and notes). -/
theorem c8_order_invariance (start : String) (L1 L2 : List String)
    (fb : String) (g : String × String)
    (hg : recordMatch (pstrip start) = some g)
    (hperm : L1.Perm L2)
    (hpre : ∀ l ∈ L1, isPrefixedMeta l = true)
    (hu : L1.countP isUnitsLine ≤ 1) (hf : L1.countP isFreqLine ≤ 1)
    (hlu : L1.countP isLuLine ≤ 1) (hn : L1.countP isNotesLine ≤ 1) :
    parseLines (start :: L1) fb = parseLines (start :: L2) fb :=
  parseLines_perm_prefixed start L1 L2 fb g hg hperm hpre hu hf hlu hn

/-- Witness for C8: swapping a `Units:` line and a `Notes:` line gives the
same parse. -/
theorem c8_order_invariance_witness :
    parseLines ["1. AB - T", "Units: U1", "Notes: hi"] "q" =
      parseLines ["1. AB - T", "Notes: hi", "Units: U1"] "q" :=
  c8_order_invariance "1. AB - T" ["Units: U1", "Notes: hi"]
    ["Notes: hi", "Units: U1"] "q" ("AB", "T") (by decide) (by decide)
    (by decide) (by decide) (by decide) (by decide) (by decide)

/-- C9: for every input string the parser returns a structure whose
`result_count` field is present and equal to the length of `results`; the
early-return path that omits `result_count` (taken when the line list is
empty) is unreachable, because Python's `split` always returns at least one
piece. -/
theorem c9_result_count_present (content fb : String) :
    (parse_search_result_file content fb).result_count =
      some ((parse_search_result_file content fb).results.length) := by
  unfold parse_search_result_file
  rw [if_neg (pySplitLines_ne_nil (pstrip content))]
  rfl

/-- C10: every emitted record has all six string fields trimmed: stripping
any stored field leaves it unchanged (no leading or trailing whitespace
survives into the output). -/
theorem c10_fields_trimmed (ls : List String) (fb : String)
    (r : SeriesRecord) (hr : r ∈ (parseLines ls fb).results) :
    pstrip r.series_id = r.series_id ∧ pstrip r.title = r.title ∧
    pstrip r.frequency = r.frequency ∧ pstrip r.units = r.units ∧
    pstrip r.last_updated = r.last_updated ∧ pstrip r.notes = r.notes :=
  scan_trimmed ls r hr

/-- Witness for C10 at a concrete document. -/
theorem c10_fields_trimmed_witness :
    pstrip "AB" = "AB" ∧ pstrip "T" = "T" ∧ pstrip "" = "" ∧
    pstrip "" = "" ∧ pstrip "" = "" ∧ pstrip "" = "" := by
  have hrm : recordMatch (pstrip "1. AB - T") = some ("AB", "T") := by decide
  have hscan : scanRecords ["1. AB - T"] =
      [⟨"AB", "T", "", "", "", ""⟩] := by
    rw [scanRecords.eq_def]
    simp +zetaDelta +decide [hrm, scanRecords, lookahead, notesJoin]
  exact c10_fields_trimmed ["1. AB - T"] "q" ⟨"AB", "T", "", "", "", ""⟩
    (by show _ ∈ scanRecords _; rw [hscan]; exact List.mem_singleton.mpr rfl)
